import Mathlib

/-!
Verification development for the SSRS-Enterprise product-catalog repository.

The product persistence layer (`src/lib/db.ts`), the schema installed by the
init script (`database/init.ts`: `CHECK(price >= 0)`, `updated_at` column and
the `update_products_timestamp` trigger), the image lifecycle functions
(`src/lib/imageProcessor.ts`, magic-bytes revision of `validateImageBuffer`)
and the caller-side validation (`validation.ts`) are embedded shallowly:

* the `products` relation is a list of rows; `DATETIME` values are modelled
  as natural-number clock readings (`CURRENT_TIMESTAMP` at an operation is
  passed in as the `now` argument);
* SQLite TEXT comparison (BINARY collation, byte-wise) is `strLtList`;
* `REAL` prices are modelled as rationals;
* fallible operations return `Except DBError`; the infrastructure error
  paths (connection loss, retries) are outside the state model.
-/

namespace SSRS

/-! ## Character and string helpers -/

/-- Byte-wise (SQLite BINARY collation) strict comparison of character lists;
on the ASCII identifiers used by the store this is exactly memcmp order,
the order `ORDER BY id DESC` sorts by. -/
def strLtList : List Char → List Char → Bool
  | [], [] => false
  | [], _ :: _ => true
  | _ :: _, [] => false
  | a :: as, b :: bs =>
    if a.toNat < b.toNat then true
    else if b.toNat < a.toNat then false
    else strLtList as bs

/-- Strict string comparison used by the model for `ORDER BY id DESC`. -/
def strLt (s t : String) : Bool := strLtList s.data t.data

/-- First maximal run of decimal digits in a list of characters: the JS
regular-expression match `\d+` used by `generateProductId`. -/
def firstDigitRun : List Char → Option (List Char)
  | [] => none
  | c :: rest =>
    if c.isDigit then some (c :: rest.takeWhile Char.isDigit)
    else firstDigitRun rest

/-- Numeric value of a decimal digit character. -/
def digitVal (c : Char) : Nat := c.toNat - 48

/-- `parseInt` on a run of decimal digits. -/
def digitsToNat (ds : List Char) : Nat := ds.foldl (fun n c => 10 * n + digitVal c) 0

/-- Fuel-driven decimal rendering (structural, so that it reduces by `rfl`). -/
def natToDigitsAux : Nat → Nat → List Char
  | 0, _ => []
  | fuel + 1, n =>
    if n < 10 then [Nat.digitChar n]
    else natToDigitsAux fuel (n / 10) ++ [Nat.digitChar (n % 10)]

/-- JS `Number.prototype.toString` restricted to naturals: decimal digits. -/
def jsNatToString (n : Nat) : List Char := natToDigitsAux (n + 1) n

/-- JS `String.prototype.padStart(3, '0')`. -/
def padStart3 (s : List Char) : List Char := List.replicate (3 - s.length) '0' ++ s

/-- ASCII whitespace recognised by JS `trim`. -/
def isJsSpace (c : Char) : Bool :=
  c = ' ' || c = '\t' || c = '\n' || c = '\r' || c = '\x0b' || c = '\x0c'

/-- JS `String.prototype.trim` on character lists. -/
def trimList (l : List Char) : List Char :=
  ((l.dropWhile isJsSpace).reverse.dropWhile isJsSpace).reverse

/-- JS `String.prototype.trim`. -/
def jsTrim (s : String) : String := ⟨trimList s.data⟩

/-- Does `pat` occur at the head of the list (`startsWith`)? -/
def listStartsWith [BEq α] : List α → List α → Bool
  | [], _ => true
  | _ :: _, [] => false
  | p :: ps, c :: cs => p == c && listStartsWith ps cs

/-- Does `pat` occur anywhere in the list (JS `String.prototype.includes`)? -/
def containsList [BEq α] (pat : List α) : List α → Bool
  | [] => listStartsWith pat ([] : List α)
  | c :: cs => listStartsWith pat (c :: cs) || containsList pat cs

/-- JS `s.includes(pat)`. -/
def strIncludes (s pat : String) : Bool := containsList pat.data s.data

/-! ## Data model (`src/types/product.ts`, schema of `database/init.ts`) -/

/-- A row of the `products` relation (= the `Product` interface). -/
structure Product where
  id : String
  name : String
  price : ℚ
  min_order_qty : String
  image_path : Option String
  created_at : Nat
  updated_at : Nat
  deriving DecidableEq

/-- `ProductInput`: creation payload (`image_path` optional/nullable). -/
structure ProductInput where
  name : String
  price : ℚ
  min_order_qty : String
  image_path : Option String
  deriving DecidableEq

/-- `ProductUpdate`: every field optional; a present `image_path` may itself
be null, hence the nested option. -/
structure ProductUpdate where
  name : Option String := none
  price : Option ℚ := none
  min_order_qty : Option String := none
  image_path : Option (Option String) := none
  deriving DecidableEq

/-- State of the `products` table, rows in insertion order. -/
structure DBState where
  rows : List Product
  deriving DecidableEq

/-- Typed failures of the store: caller-input validation, the primary-key
constraint, and the schema-level `CHECK` constraint. -/
inductive DBError where
  | validationErr (msg : String)
  | constraintViolation
  | checkViolation
  deriving DecidableEq

/-- The schema-level check installed by `database/init.ts`:
`price REAL NOT NULL CHECK(price >= 0)`. -/
def priceCheck (p : ℚ) : Bool := 0 ≤ p

/-! ## Identifier generator (`generateProductId`, db.ts lines 144-177) -/

/-- `SELECT id FROM products ORDER BY id DESC LIMIT 1`: the byte-wise
(lexicographically) greatest id, if any. -/
def maxId (rows : List Product) : Option String :=
  rows.foldl
    (fun acc r =>
      match acc with
      | none => some r.id
      | some m => some (if strLt m r.id then r.id else m))
    none

/-- `generateProductId`: take the lexicographically last id, extract its
first digit run (`/\d+/`), increment, render zero-padded to width ≥ 3 with
the `prod_` stem; empty table or no digit run yields `prod_001`. -/
def generateProductId (s : DBState) : String :=
  match maxId s.rows with
  | none => "prod_001"
  | some lastId =>
    match firstDigitRun lastId.data with
    | none => "prod_001"
    | some run => ⟨"prod_".data ++ padStart3 (jsNatToString (digitsToNat run + 1))⟩

/-! ## Product store operations (db.ts) -/

/-- `getProductById`: `null` on a falsy id, else the first row matching
`WHERE id = ?`. -/
def getProductById (s : DBState) (id : String) : Option Product :=
  if id = "" then none
  else s.rows.find? (fun r => r.id == id)

/-- The row written by the `INSERT` of `createProduct`: trimmed name and
quantity, falsy `image_path` coerced to null, both timestamp columns filled
by their `DEFAULT CURRENT_TIMESTAMP`. -/
def insertedRow (now : Nat) (s : DBState) (input : ProductInput) : Product :=
  { id := generateProductId s
    name := jsTrim input.name
    price := input.price
    min_order_qty := jsTrim input.min_order_qty
    image_path :=
      match input.image_path with
      | some p => if p = "" then none else some p
      | none => none
    created_at := now
    updated_at := now }

/-- `createProduct`: reject a missing name (the `!input.name` guard), obtain
an id, insert (primary key and `CHECK` enforced by the store), then re-read
the materialized row. -/
def createProduct (now : Nat) (s : DBState) (input : ProductInput) :
    Except DBError (DBState × Product) :=
  if input.name = "" then .error (.validationErr "Product name and price are required")
  else
    let id := generateProductId s
    if s.rows.any (fun r => r.id == id) then .error .constraintViolation
    else if priceCheck input.price then
      let s' : DBState := ⟨s.rows ++ [insertedRow now s input]⟩
      match getProductById s' id with
      | none => .error (.validationErr "Product was created but could not be retrieved")
      | some p => .ok (s', p)
    else .error .checkViolation

/-- The dynamic `SET` clause of `updateProduct`: only fields present in the
partial input are assigned; `name` and `min_order_qty` are trimmed. -/
def applySet (input : ProductUpdate) (r : Product) : Product :=
  { r with
    name := match input.name with | some n => jsTrim n | none => r.name
    price := match input.price with | some p => p | none => r.price
    min_order_qty :=
      match input.min_order_qty with | some q => jsTrim q | none => r.min_order_qty
    image_path := match input.image_path with | some ip => ip | none => r.image_path }

/-- Does the partial input contain at least one field (`fields.length > 0`)? -/
def hasUpdateField (input : ProductUpdate) : Bool :=
  input.name.isSome || input.price.isSome ||
    input.min_order_qty.isSome || input.image_path.isSome

/-- The `update_products_timestamp` trigger of `database/init.ts`:
`AFTER UPDATE` refresh of `updated_at` to `CURRENT_TIMESTAMP`. -/
def applyTrigger (now : Nat) (r : Product) : Product := { r with updated_at := now }

/-- `updateProduct`: null on falsy id or a missing row, the unchanged row on
an empty field set; otherwise execute the dynamic `UPDATE` (store `CHECK`
enforced on every written row, trigger refreshes `updated_at`) and re-read. -/
def updateProduct (now : Nat) (s : DBState) (id : String) (input : ProductUpdate) :
    Except DBError (DBState × Option Product) :=
  if id = "" then .ok (s, none)
  else
    match getProductById s id with
    | none => .ok (s, none)
    | some existing =>
      if hasUpdateField input then
        if s.rows.all (fun r => !(r.id == id) || priceCheck (applySet input r).price) then
          let s' : DBState :=
            ⟨s.rows.map (fun r =>
              if r.id == id then applyTrigger now (applySet input r) else r)⟩
          .ok (s', getProductById s' id)
        else .error .checkViolation
      else .ok (s, some existing)

/-- `deleteProduct`: false on a falsy id; otherwise `DELETE ... WHERE id = ?`
and report `rowsAffected > 0`. -/
def deleteProduct (s : DBState) (id : String) : DBState × Bool :=
  if id = "" then (s, false)
  else
    (⟨s.rows.filter (fun r => !(r.id == id))⟩, s.rows.any (fun r => r.id == id))

/-- SQLite `LIKE` case folding: ASCII letters compare case-insensitively. -/
def likeFold (c : Char) : Char :=
  if 'A' ≤ c && c ≤ 'Z' then Char.ofNat (c.toNat + 32) else c

/-- SQLite `LIKE` pattern matching: `%` matches any sequence, `_` any single
character, other characters match up to ASCII case. -/
def likeMatch : List Char → List Char → Bool
  | [], t => t.isEmpty
  | p :: ps, t =>
    if p = '%' then
      likeMatch ps t ||
        (match t with
         | [] => false
         | _ :: ts => likeMatch (p :: ps) ts)
    else
      match t with
      | [] => false
      | c :: ts =>
        if p = '_' then likeMatch ps ts
        else likeFold p == likeFold c && likeMatch ps ts
termination_by p t => (p.length, t.length)

/-- Ordering used by `ORDER BY created_at DESC` (newest first). -/
def byNewest (a b : Product) : Bool := b.created_at ≤ a.created_at

/-- `searchProducts`: a falsy query short-circuits to `[]` without touching
the store; otherwise `WHERE name LIKE '%' || trim(query) || '%'` ordered
newest first. -/
def searchProducts (s : DBState) (query : String) : List Product :=
  if query = "" then []
  else
    let pat : List Char := '%' :: (trimList query.data ++ ['%'])
    (s.rows.filter (fun r => likeMatch pat r.name.data)).mergeSort byNewest

/-! ## Caller-side validation (`validation.ts`) -/

/-- `PRODUCT_CONFIG` bounds from `constants.ts`. -/
def MIN_PRICE : ℚ := 0

/-- Upper price bound from `constants.ts`. -/
def MAX_PRICE : ℚ := 1000000

/-- `validateProductPrice`: the caller-side (Catalog Service) price rule. -/
def validateProductPrice (price : ℚ) : Except String Unit :=
  if price < MIN_PRICE then .error "Price must be at least 0"
  else if MAX_PRICE < price then .error "Price cannot exceed 1000000"
  else .ok ()

/-! ## Image lifecycle (`imageProcessor.ts`) -/

/-- `IMAGE_CONFIG.MAX_FILE_SIZE` (5 MiB). -/
def MAX_FILE_SIZE : Nat := 5 * 1024 * 1024

/-- The `isJpeg` byte test of the magic-bytes `validateImageBuffer`
(out-of-range reads are `undefined` in JS and match nothing). -/
def jpegSigB (buf : List Nat) : Bool :=
  buf[0]? == some 0xFF && buf[1]? == some 0xD8

/-- The `isPng` byte test of the magic-bytes `validateImageBuffer`. -/
def pngSigB (buf : List Nat) : Bool :=
  buf[0]? == some 0x89 && buf[1]? == some 0x50 &&
    buf[2]? == some 0x4E && buf[3]? == some 0x47

/-- The `isWebp` byte test of the magic-bytes `validateImageBuffer`: only
the four RIFF bytes are inspected. -/
def riffSigB (buf : List Nat) : Bool :=
  buf[0]? == some 0x52 && buf[1]? == some 0x49 &&
    buf[2]? == some 0x46 && buf[3]? == some 0x46

/-- Magic-bytes revision of `validateImageBuffer`: reject the empty buffer,
then accept iff the first bytes match one of the three tests. -/
def validateImageBuffer (buf : List Nat) : Except String Unit :=
  if buf.length = 0 then .error "Empty image buffer"
  else if !jpegSigB buf && !pngSigB buf && !riffSigB buf then
    .error "Invalid image format. Please use JPEG, PNG, or WebP."
  else .ok ()

/-- The validation guard at the head of `processAndSaveImage` (lines 32-39):
empty-buffer and size-ceiling checks performed before any Sharp/Blob I/O
(the transcoding and upload that follow are external-library effects). -/
def processAndSaveImageChecks (buf : List Nat) : Except String Unit :=
  if buf.length = 0 then .error "Empty image buffer provided"
  else if MAX_FILE_SIZE < buf.length then .error "Image too large."
  else .ok ()

/-- The managed-storage namespace marker recognised by `deleteImage`. -/
def BLOB_HOST : String := "blob.vercel-storage.com"

/-- State of the external blob store: the set of stored references. -/
abbrev BlobStore := List String

/-- `del` of `@vercel/blob`: removes the object, failing when it is absent. -/
def blobDel (store : BlobStore) (url : String) : Except String BlobStore :=
  if url ∈ store then .ok (store.filter (fun u => !(u == url)))
  else .error "blob not found"

/-- `deleteImage`: falsy references and references outside the managed
namespace return without attempting deletion; otherwise `del` is attempted
and any failure is logged and swallowed. The boolean records whether a
deletion was attempted; no error channel exists in the return type. -/
def deleteImage (store : BlobStore) (imageUrl : String) : BlobStore × Bool :=
  if imageUrl = "" then (store, false)
  else if strIncludes imageUrl BLOB_HOST then
    match blobDel store imageUrl with
    | .ok store' => (store', true)
    | .error _ => (store, true)
  else (store, false)

/-! ## Spec-side predicates (stated from the claims' words, for comparison
against the embedded code) -/

/-- Spec-side predicate: the full WebP signature demanded by the claim —
RIFF at offset 0 and the ASCII bytes of `WEBP` at offset 8. -/
def specWebpSig (buf : List Nat) : Bool :=
  listStartsWith [0x52, 0x49, 0x46, 0x46] buf &&
    listStartsWith [0x57, 0x45, 0x42, 0x50] (buf.drop 8)

/-- Spec-side predicate: the acceptance set claimed for `validate(buffer)` —
nonempty, within the size ceiling, and bearing a full JPEG/PNG/WebP
signature. -/
def specValidateAccepts (buf : List Nat) : Bool :=
  !(buf.length = 0) && buf.length ≤ MAX_FILE_SIZE &&
    (listStartsWith [0xFF, 0xD8] buf ||
      listStartsWith [0x89, 0x50, 0x4E, 0x47] buf ||
      specWebpSig buf)

/-- Spec-side predicate: an identifier parses as `prod_<digits>` — the
`prod_` stem followed by a nonempty run of decimal digits and nothing else. -/
def parsesAsProdDigits (id : String) : Bool :=
  listStartsWith "prod_".data id.data &&
    (let ds := id.data.drop 5
     !ds.isEmpty && ds.all Char.isDigit)

/-- Spec-side predicate: the trimmed query occurs literally (case-sensitive)
as a substring of the name — the reading asserted by the search claim. -/
def specSearchMatch (query name : String) : Bool :=
  containsList (trimList query.data) name.data

/-- The numeric suffix of a generated identifier (digits after `prod_`). -/
def suffixNum (id : String) : Nat := digitsToNat (id.data.drop 5)

/-- The canonical generated identifier for a counter value: `prod_` with the
value zero-padded to width at least three. -/
def pad3Id (k : Nat) : String := ⟨"prod_".data ++ padStart3 (jsNatToString k)⟩

/-- The three decimal digits of a number below 1000, most significant first. -/
def threeDigits (k : Nat) : List Char :=
  [Nat.digitChar (k / 100), Nat.digitChar (k / 10 % 10), Nat.digitChar (k % 10)]

/-- Case-insensitive matching of the trimmed query as a substring of the
name: the relation `searchProducts` actually implements on wildcard-free
queries (`likeFold` is SQLite's ASCII case folding). -/
def specSearchMatchCI (query name : String) : Bool :=
  containsList ((trimList query.data).map likeFold) (name.data.map likeFold)

/-- Does every row of the table satisfy the schema-level price check? -/
def allPricesOk (s : DBState) : Bool := s.rows.all (fun r => priceCheck r.price)

/-- Table states whose ids are all of the canonical zero-padded 3-digit form,
with maximum counter value `m` (present in the table). Under such states the
lexicographic `ORDER BY id DESC` agrees with numeric order. -/
def stateAllPad3 (m : Nat) (s : DBState) : Prop :=
  1 ≤ m ∧ m ≤ 999 ∧
    (∀ r ∈ s.rows, ∃ k, 1 ≤ k ∧ k ≤ m ∧ r.id = pad3Id k) ∧
    ∃ r ∈ s.rows, r.id = pad3Id m

/-! ## Concrete fixtures used by counterexamples and witnesses -/

/-- A minimal valid creation payload. -/
def demoInput : ProductInput :=
  { name := "A", price := 1, min_order_qty := "1", image_path := none }

/-- A row with identifier `prod_999`. -/
def row999 : Product :=
  { id := "prod_999", name := "Old", price := 1, min_order_qty := "1",
    image_path := none, created_at := 0, updated_at := 0 }

/-- A table state holding the single row `prod_999`. -/
def s999 : DBState := ⟨[row999]⟩

/-- A creation payload whose price exceeds the documented upper bound. -/
def bigInput : ProductInput :=
  { name := "B", price := 2000000, min_order_qty := "1", image_path := none }

/-- A table state holding a single row whose id is not of the generated
shape but does contain a digit run. -/
def sItem : DBState :=
  ⟨[{ id := "item_42", name := "x", price := 1, min_order_qty := "1",
      image_path := none, created_at := 0, updated_at := 0 }]⟩

/-- A table state holding a single row whose id contains no digits. -/
def sZzz : DBState :=
  ⟨[{ id := "zzz", name := "x", price := 1, min_order_qty := "1",
      image_path := none, created_at := 0, updated_at := 0 }]⟩

/-- The row created by `createProduct 0 s999 demoInput`. -/
def row1000 : Product :=
  { id := "prod_1000", name := "A", price := 1, min_order_qty := "1",
    image_path := none, created_at := 0, updated_at := 0 }

/-- The table state after that create. -/
def s999' : DBState := ⟨s999.rows ++ [row1000]⟩

/-- The creation payload of the spec's create scenario (price 450.50). -/
def steelInput : ProductInput :=
  { name := "Steel Rod", price := mkRat 901 2, min_order_qty := "10 units",
    image_path := none }

/-- The row materialized for that payload on an empty table at time 7. -/
def rowSteel : Product :=
  { id := "prod_001", name := "Steel Rod", price := mkRat 901 2,
    min_order_qty := "10 units", image_path := none,
    created_at := 7, updated_at := 7 }

/-- The table state after the scenario create. -/
def sSteel : DBState := ⟨[rowSteel]⟩

/-- The partial update of the spec's update scenario: price only. -/
def upd500 : ProductUpdate := { price := some 500 }

/-- `row999` after that update at time 5. -/
def row500 : Product :=
  { id := "prod_999", name := "Old", price := 500, min_order_qty := "1",
    image_path := none, created_at := 0, updated_at := 5 }

/-- A row with identifier `prod_001`. -/
def row001 : Product :=
  { id := "prod_001", name := "First", price := 1, min_order_qty := "1",
    image_path := none, created_at := 0, updated_at := 0 }

/-- A one-row table holding `prod_001`. -/
def s001 : DBState := ⟨[row001]⟩

/-- A one-row table whose product is named `XA`. -/
def rowXA : Product :=
  { id := "prod_001", name := "XA", price := 1, min_order_qty := "1",
    image_path := none, created_at := 0, updated_at := 0 }

/-- The table state holding only `rowXA`. -/
def sXA : DBState := ⟨[rowXA]⟩

/-- Iterate `createProduct`: perform `n` successive creates (stopping at the
first failure), returning the final state and the generated ids in order. -/
def createSeq (input : ProductInput) (now : Nat) : Nat → DBState → DBState × List String
  | 0, s => (s, [])
  | n + 1, s =>
    match createProduct now s input with
    | .ok (s', p) =>
      let r := createSeq input now n s'
      (r.1, p.id :: r.2)
    | .error _ => (s, [])

/-! ## Theorems -/

/-- C4 — corrected. The magic-bytes validate operation rejects the empty
buffer and accepts exactly the nonempty buffers passing one of the three
first-byte tests; WebP is recognised by the four RIFF bytes alone (the
`WEBP` tag at offset 8 is not inspected), and the 5 MiB ceiling is enforced
not by validate but by the guard at the head of the store step, which
rejects any buffer larger than `MAX_FILE_SIZE`. -/
theorem validateImageBuffer_characterization :
    (∀ buf : List Nat, validateImageBuffer buf = .ok () ↔
      buf ≠ [] ∧
        (jpegSigB buf = true ∨ pngSigB buf = true ∨ riffSigB buf = true)) ∧
    (∀ buf : List Nat, MAX_FILE_SIZE < buf.length →
      processAndSaveImageChecks buf = .error "Image too large.") := by
  constructor
  · intro buf
    by_cases h0 : buf.length = 0
    · have hb : buf = [] := List.length_eq_zero.mp h0
      subst hb
      simp [validateImageBuffer]
    · have hne : buf ≠ [] := by
        intro h
        subst h
        simp at h0
      by_cases hsig : (!jpegSigB buf && !pngSigB buf && !riffSigB buf) = true
      · have h3 : jpegSigB buf = false ∧ pngSigB buf = false ∧ riffSigB buf = false := by
          simp only [Bool.and_eq_true, Bool.not_eq_true'] at hsig
          exact ⟨hsig.1.1, hsig.1.2, hsig.2⟩
        simp [validateImageBuffer, h0, hsig, h3.1, h3.2.1, h3.2.2]
      · have h3 : jpegSigB buf = true ∨ pngSigB buf = true ∨ riffSigB buf = true := by
          revert hsig
          cases jpegSigB buf <;> cases pngSigB buf <;> cases riffSigB buf <;> simp
        simp [validateImageBuffer, h0, hsig, hne, h3]
  · intro buf h
    have h0 : buf.length ≠ 0 := by
      intro hz
      rw [hz] at h
      exact absurd h (by simp [MAX_FILE_SIZE])
    simp [processAndSaveImageChecks, h0, h]

/-- C4 — witness for the hypotheses of the characterization: a 2-byte JPEG
SOI buffer is accepted, and a buffer one byte over the ceiling is rejected
by the store-step guard. -/
theorem validateImageBuffer_characterization_witness :
    validateImageBuffer [0xFF, 0xD8] = .ok () ∧
      processAndSaveImageChecks (List.replicate (MAX_FILE_SIZE + 1) 0) =
        .error "Image too large." :=
  ⟨(validateImageBuffer_characterization.1 [0xFF, 0xD8]).mpr
      ⟨by decide, Or.inl (by decide)⟩,
    validateImageBuffer_characterization.2 (List.replicate (MAX_FILE_SIZE + 1) 0)
      (by simp)⟩

/-- C4 — counterexample to the claim as stated: a buffer whose first bytes
are RIFF but which carries no `WEBP` tag at offset 8 matches none of the
claimed full signatures (and the claim therefore demands rejection), yet
the code accepts it. -/
theorem validateImageBuffer_riff_counterexample :
    validateImageBuffer [0x52, 0x49, 0x46, 0x46, 0, 0, 0, 0, 0, 0, 0, 0] = .ok () ∧
      specValidateAccepts [0x52, 0x49, 0x46, 0x46, 0, 0, 0, 0, 0, 0, 0, 0] = false := by
  constructor
  · rfl
  · decide

/-- C7 — confirmed. Deleting an id that matches no row is reported as
`false` (not found) with the table left unchanged; no error is raised on
this path. -/
theorem deleteProduct_notFound_false :
    ∀ (s : DBState) (id : String), (∀ r ∈ s.rows, r.id ≠ id) →
      deleteProduct s id = (s, false) := by
  intro s id h
  unfold deleteProduct
  by_cases hid : id = ""
  · simp [hid]
  · rw [if_neg hid]
    have hfilter : s.rows.filter (fun r => !(r.id == id)) = s.rows := by
      apply List.filter_eq_self.mpr
      intro r hr
      simp [h r hr]
    have hany : s.rows.any (fun r => r.id == id) = false := by
      simp only [List.any_eq_false]
      intro r hr
      simp [h r hr]
    rw [hfilter, hany]

/-- C7 — witness: deleting `prod_123` from the one-row table `s999`. -/
theorem deleteProduct_notFound_false_witness :
    deleteProduct s999 "prod_123" = (s999, false) :=
  deleteProduct_notFound_false s999 "prod_123" (by decide)

/-- C8 — confirmed. `deleteImage` on a reference outside the managed blob
namespace attempts no deletion and leaves the store unchanged; on an absent
object it is not an error (the store is unchanged, the failure swallowed);
and its effect on the store is idempotent. -/
theorem deleteImage_foreign_noop_idempotent :
    (∀ (store : BlobStore) (url : String),
      strIncludes url BLOB_HOST = false → deleteImage store url = (store, false)) ∧
    (∀ (store : BlobStore) (url : String),
      url ∉ store → (deleteImage store url).1 = store) ∧
    (∀ (store : BlobStore) (url : String),
      (deleteImage (deleteImage store url).1 url).1 = (deleteImage store url).1) := by
  refine ⟨?_, ?_, ?_⟩
  · intro store url h
    unfold deleteImage
    by_cases hemp : url = ""
    · simp [hemp]
    · simp [hemp, h]
  · intro store url h
    unfold deleteImage
    by_cases hemp : url = ""
    · simp [hemp]
    · by_cases hns : strIncludes url BLOB_HOST
      · simp [hemp, hns, blobDel, h]
      · simp [hemp, hns]
  · intro store url
    by_cases hemp : url = ""
    · simp [deleteImage, hemp]
    · by_cases hns : strIncludes url BLOB_HOST
      · by_cases hmem : url ∈ store
        · have h1 : (deleteImage store url).1 = store.filter (fun u => !(u == url)) := by
            simp [deleteImage, hemp, hns, blobDel, hmem]
          have hnotmem : url ∉ store.filter (fun u => !(u == url)) := by
            intro hc
            have := List.of_mem_filter hc
            simp at this
          rw [h1]
          simp [deleteImage, hemp, hns, blobDel, hnotmem]
        · have h1 : (deleteImage store url).1 = store := by
            simp [deleteImage, hemp, hns, blobDel, hmem]
          rw [h1]
          simp [deleteImage, hemp, hns, blobDel, hmem]
      · simp [deleteImage, hemp, hns]

/-- C8 — witness: a foreign URL is untouched in a nonempty store, and
deleting from the empty store (missing object) is not an error. -/
theorem deleteImage_foreign_noop_idempotent_witness :
    deleteImage ["a"] "https://example.com/x.jpg" = (["a"], false) ∧
      (deleteImage ([] : BlobStore) "x.blob.vercel-storage.com/a.jpg").1 = [] :=
  ⟨deleteImage_foreign_noop_idempotent.1 ["a"] "https://example.com/x.jpg" (by decide),
    deleteImage_foreign_noop_idempotent.2.1 [] "x.blob.vercel-storage.com/a.jpg"
      (by simp)⟩

/-- C5 — confirmed. An update whose partial input contains no fields is an
identity: it returns the existing row, performs no write (the state is
returned untouched), and `updated_at` is unchanged. -/
theorem updateProduct_empty_identity :
    ∀ (now : Nat) (s : DBState) (id : String) (p : Product),
      getProductById s id = some p →
      updateProduct now s id {} = .ok (s, some p) := by
  intro now s id p h
  have hid : id ≠ "" := by
    intro he
    rw [he] at h
    simp [getProductById] at h
  unfold updateProduct
  rw [if_neg hid, h]
  simp [hasUpdateField]

/-- C5 — witness: the empty update on `prod_999` in `s999`. -/
theorem updateProduct_empty_identity_witness :
    updateProduct 5 s999 "prod_999" {} = .ok (s999, some row999) :=
  updateProduct_empty_identity 5 s999 "prod_999" row999 rfl

/-- C9 — corrected. `generateProductId` returns `prod_001` when the table is
empty and when the lexicographically last id contains no digit run at all;
but an unparseable id that does contain digits is not mapped to `prod_001`
(the tolerant `\d+` match extracts and increments its first digit run). -/
theorem generateProductId_fallback :
    (∀ s : DBState, s.rows = [] → generateProductId s = "prod_001") ∧
    (∀ (s : DBState) (last : String), maxId s.rows = some last →
      firstDigitRun last.data = none → generateProductId s = "prod_001") := by
  constructor
  · intro s h
    unfold generateProductId maxId
    rw [h]
    rfl
  · intro s last h1 h2
    unfold generateProductId
    rw [h1]
    simp [h2]

/-- C9 — witness: the empty table, and a table whose only id is `zzz`. -/
theorem generateProductId_fallback_witness :
    generateProductId ⟨[]⟩ = "prod_001" ∧ generateProductId sZzz = "prod_001" :=
  ⟨generateProductId_fallback.1 ⟨[]⟩ rfl,
    generateProductId_fallback.2 sZzz "zzz" rfl rfl⟩

/-- C9 — counterexample to the claim as stated: the stored maximum id
`item_42` cannot be parsed as `prod_<digits>`, yet the generator returns
`prod_043`, not `prod_001`. -/
theorem generateProductId_item42_counterexample :
    parsesAsProdDigits "item_42" = false ∧
      generateProductId sItem = "prod_043" ∧ "prod_043" ≠ "prod_001" := by
  refine ⟨by decide, rfl, by decide⟩

/-- C3 — counterexample to the claim as stated: an insert whose price is
2,000,000 (violating the documented upper bound) is accepted by the store —
only caller-side validation rejects it, so the bound is not enforced by a
storage-level check. -/
theorem storagePriceCheck_upper_counterexample :
    ((createProduct 0 ⟨[]⟩ bigInput).toOption.map fun r => r.2.price) =
        some 2000000 ∧
      validateProductPrice 2000000 = .error "Price cannot exceed 1000000" :=
  ⟨rfl, rfl⟩

/-- C3 — amended. The storage-level check of the installed schema is
`CHECK(price >= 0)` only: every write path preserves nonnegativity of all
stored prices, while the upper bound 1,000,000 is enforced solely by the
caller-side `validateProductPrice`. -/
theorem priceCheck_lower_bound_preserved :
    (∀ (now : Nat) (s : DBState) (input : ProductInput) (s' : DBState) (p : Product),
      allPricesOk s = true → createProduct now s input = .ok (s', p) →
      allPricesOk s' = true) ∧
    (∀ (now : Nat) (s : DBState) (id : String) (input : ProductUpdate)
        (s' : DBState) (op : Option Product),
      allPricesOk s = true → updateProduct now s id input = .ok (s', op) →
      allPricesOk s' = true) ∧
    (∀ (s : DBState) (id : String),
      allPricesOk s = true → allPricesOk (deleteProduct s id).1 = true) := by
  refine ⟨?_, ?_, ?_⟩
  · intro now s input s' p h hok
    simp only [createProduct] at hok
    split at hok
    · exact absurd hok (by simp)
    · split at hok
      · exact absurd hok (by simp)
      · split at hok
        · split at hok
          · exact absurd hok (by simp)
          · rename_i hpc _ _ _
            simp only [Except.ok.injEq, Prod.mk.injEq] at hok
            obtain ⟨hs, hp⟩ := hok
            subst hs
            simp only [allPricesOk, List.all_eq_true] at h ⊢
            intro r hr
            rcases List.mem_append.mp hr with hr | hr
            · exact h r hr
            · rcases List.mem_singleton.mp hr with rfl
              simpa using hpc
        · exact absurd hok (by simp)
  · intro now s id input s' op h hok
    simp only [updateProduct] at hok
    split at hok
    · simp only [Except.ok.injEq, Prod.mk.injEq] at hok
      obtain ⟨hs, _⟩ := hok
      subst hs
      exact h
    · split at hok
      · simp only [Except.ok.injEq, Prod.mk.injEq] at hok
        obtain ⟨hs, _⟩ := hok
        subst hs
        exact h
      · split at hok
        · split at hok
          · rename_i hall
            simp only [Except.ok.injEq, Prod.mk.injEq] at hok
            obtain ⟨hs, _⟩ := hok
            subst hs
            simp only [allPricesOk, List.all_eq_true] at h hall ⊢
            intro r' hr'
            rcases List.mem_map.mp hr' with ⟨r, hr, rfl⟩
            by_cases hid' : (r.id == id) = true
            · have := hall r hr
              simp only [hid', Bool.not_true, Bool.false_or] at this
              simpa [hid', applyTrigger] using this
            · simpa [hid'] using h r hr
          · exact absurd hok (by simp)
        · simp only [Except.ok.injEq, Prod.mk.injEq] at hok
          obtain ⟨hs, _⟩ := hok
          subst hs
          exact h
  · intro s id h
    unfold deleteProduct
    split
    · exact h
    · simp only [allPricesOk, List.all_eq_true] at h ⊢
      intro r hr
      exact h r (List.mem_of_mem_filter hr)

/-- C3 — witness: nonnegativity is preserved by the concrete create of
`demoInput` into `s999` and by deleting `prod_999`. -/
theorem priceCheck_lower_bound_preserved_witness :
    allPricesOk s999' = true ∧ allPricesOk (deleteProduct s999 "prod_999").1 = true :=
  ⟨priceCheck_lower_bound_preserved.1 0 s999 demoInput s999' row1000 (by decide) rfl,
    priceCheck_lower_bound_preserved.2.2 s999 "prod_999" (by decide)⟩

/-- C6 — confirmed. A successful create returns the row re-read from the
store after the insert: re-reading by the returned id yields exactly the
returned product; its timestamps are the server-assigned
`created_at = updated_at = now`; its persisted fields are the stored
(trimmed) values rather than an echo of the raw input; and the new state is
the old table extended with exactly that row. -/
theorem createProduct_reread :
    ∀ (now : Nat) (s : DBState) (input : ProductInput) (s' : DBState) (p : Product),
      createProduct now s input = .ok (s', p) →
      getProductById s' p.id = some p ∧
      p.created_at = now ∧ p.updated_at = now ∧
      p.name = jsTrim input.name ∧ p.price = input.price ∧
      p.min_order_qty = jsTrim input.min_order_qty ∧
      s'.rows = s.rows ++ [p] := by
  intro now s input s' p hok
  simp only [createProduct] at hok
  split at hok
  · exact absurd hok (by simp)
  · split at hok
    · exact absurd hok (by simp)
    · split at hok
      · rename_i hany hpc
        split at hok
        · exact absurd hok (by simp)
        · rename_i q hfind
          simp only [Except.ok.injEq, Prod.mk.injEq] at hok
          obtain ⟨hs, hp⟩ := hok
          subst hs
          subst hp
          have hanyF : (s.rows.any fun r => r.id == generateProductId s) = false := by
            simpa using hany
          have hany' : ∀ r ∈ s.rows, (r.id == generateProductId s) = false := by
            intro r hr
            have := List.any_eq_false.mp hanyF r hr
            simpa using this
          have hfind' := hfind
          unfold getProductById at hfind'
          split at hfind'
          · exact absurd hfind' (by simp)
          · rw [List.find?_append] at hfind'
            rw [List.find?_eq_none.mpr (fun r hr => by simp [hany' r hr])] at hfind'
            have hbeq : ((insertedRow now s input).id == generateProductId s) = true := by
              simp [insertedRow]
            simp only [Option.none_or, List.find?_cons, List.find?_nil, hbeq] at hfind'
            have hq : q = insertedRow now s input := by
              injection hfind' with h'
              exact h'.symm
            subst hq
            refine ⟨?_, rfl, rfl, rfl, rfl, rfl, rfl⟩
            exact hfind
      · exact absurd hok (by simp)

/-- C6 — witness: the spec's create scenario on the empty table at time 7. -/
theorem createProduct_reread_witness :
    getProductById sSteel rowSteel.id = some rowSteel ∧
    rowSteel.created_at = 7 ∧ rowSteel.updated_at = 7 ∧
    rowSteel.name = jsTrim steelInput.name ∧ rowSteel.price = steelInput.price ∧
    rowSteel.min_order_qty = jsTrim steelInput.min_order_qty ∧
    sSteel.rows = DBState.rows ⟨[]⟩ ++ [rowSteel] :=
  createProduct_reread 7 ⟨[]⟩ steelInput sSteel rowSteel (by rfl)

/-- Updating all rows matching an id with an id-preserving function commutes
with looking up the first row matching that id. -/
theorem find?_map_update (rows : List Product) (id : String) (g : Product → Product)
    (hg : ∀ r, (g r).id = r.id) :
    (rows.map (fun r => if r.id == id then g r else r)).find? (fun r => r.id == id) =
      (rows.find? (fun r => r.id == id)).map g := by
  induction rows with
  | nil => rfl
  | cons r rest ih =>
    simp only [List.map_cons, List.find?_cons]
    by_cases hr : (r.id == id) = true
    · rw [if_pos hr]
      have hgid : ((g r).id == id) = true := by
        rw [hg r]
        exact hr
      simp [hr, hgid]
    · have hr' : (r.id == id) = false := by simpa using hr
      rw [if_neg (by simp [hr'])]
      simp only [hr', ih]

/-- C2 — confirmed. A successful update whose partial input contains at
least one field returns the re-read row: updated fields are applied, the
trigger refreshes `updated_at` to the current clock (strictly later than the
row's previous `updated_at` when the clock has advanced), and every field
not present in the input — as well as `id` and `created_at` — retains its
prior value. -/
theorem updateProduct_refreshes_updated_at :
    ∀ (now : Nat) (s : DBState) (id : String) (input : ProductUpdate)
      (p : Product) (s' : DBState) (op : Option Product),
      getProductById s id = some p →
      hasUpdateField input = true →
      p.updated_at < now →
      updateProduct now s id input = .ok (s', op) →
      op = some (applyTrigger now (applySet input p)) ∧
      p.updated_at < (applyTrigger now (applySet input p)).updated_at ∧
      (input.name = none → (applyTrigger now (applySet input p)).name = p.name) ∧
      (input.price = none → (applyTrigger now (applySet input p)).price = p.price) ∧
      (input.min_order_qty = none →
        (applyTrigger now (applySet input p)).min_order_qty = p.min_order_qty) ∧
      (input.image_path = none →
        (applyTrigger now (applySet input p)).image_path = p.image_path) ∧
      (applyTrigger now (applySet input p)).created_at = p.created_at ∧
      (applyTrigger now (applySet input p)).id = p.id := by
  intro now s id input p s' op h hfield hlt hok
  have hid : id ≠ "" := by
    intro he
    rw [he] at h
    simp [getProductById] at h
  have hfind : s.rows.find? (fun r => r.id == id) = some p := by
    unfold getProductById at h
    rw [if_neg hid] at h
    exact h
  simp only [updateProduct] at hok
  rw [if_neg hid] at hok
  rw [getProductById, if_neg hid, hfind] at hok
  simp only [hfield, if_true] at hok
  split at hok
  · rename_i hall
    simp only [Except.ok.injEq, Prod.mk.injEq] at hok
    obtain ⟨hs, hopv⟩ := hok
    have hre : getProductById ⟨s.rows.map (fun r =>
        if r.id == id then applyTrigger now (applySet input r) else r)⟩ id =
        some (applyTrigger now (applySet input p)) := by
      unfold getProductById
      rw [if_neg hid]
      simp only
      rw [find?_map_update s.rows id
        (fun r => applyTrigger now (applySet input r)) (fun r => rfl), hfind]
      rfl
    refine ⟨?_, ?_, ?_, ?_, ?_, ?_, ?_, ?_⟩
    · rw [← hopv, hre]
    · simpa [applyTrigger] using hlt
    · intro hn
      simp [applyTrigger, applySet, hn]
    · intro hn
      simp [applyTrigger, applySet, hn]
    · intro hn
      simp [applyTrigger, applySet, hn]
    · intro hn
      simp [applyTrigger, applySet, hn]
    · rfl
    · rfl
  · exact absurd hok (by simp)

/-- C2 — witness: the spec's update scenario — `prod_999` updated with a
price of 500 at time 5: the result is the refreshed row, `updated_at`
strictly increased, and name/quantity/image/created/id retained. -/
theorem updateProduct_refreshes_updated_at_witness :
    (some row500 : Option Product) = some (applyTrigger 5 (applySet upd500 row999)) ∧
    row999.updated_at < (applyTrigger 5 (applySet upd500 row999)).updated_at ∧
    (applyTrigger 5 (applySet upd500 row999)).name = row999.name ∧
    (applyTrigger 5 (applySet upd500 row999)).min_order_qty = row999.min_order_qty ∧
    (applyTrigger 5 (applySet upd500 row999)).image_path = row999.image_path ∧
    (applyTrigger 5 (applySet upd500 row999)).created_at = row999.created_at := by
  have H := updateProduct_refreshes_updated_at 5 s999 "prod_999" upd500 row999
    ⟨[row500]⟩ (some row500) rfl rfl (by decide) (by rfl)
  exact ⟨H.1, H.2.1, H.2.2.1 rfl, H.2.2.2.2.1 rfl, H.2.2.2.2.2.1 rfl,
    H.2.2.2.2.2.2.1⟩

/-- Unfolding: the empty pattern matches only the empty text. -/
theorem likeMatch_nil (t : List Char) : likeMatch [] t = t.isEmpty := by
  rw [likeMatch]

/-- Unfolding: a leading `%` against the empty text. -/
theorem likeMatch_pct_nil (ps : List Char) :
    likeMatch ('%' :: ps) [] = likeMatch ps [] := by
  rw [likeMatch]
  simp

/-- Unfolding: a leading `%` against a nonempty text. -/
theorem likeMatch_pct_cons (ps : List Char) (c : Char) (ts : List Char) :
    likeMatch ('%' :: ps) (c :: ts) =
      (likeMatch ps (c :: ts) || likeMatch ('%' :: ps) ts) := by
  rw [likeMatch]
  simp

/-- Unfolding: a leading ordinary character never matches the empty text. -/
theorem likeMatch_char_nil (a : Char) (ps : List Char) (h : ¬a = '%') :
    likeMatch (a :: ps) [] = false := by
  rw [likeMatch]
  simp [h]

/-- Unfolding: a leading ordinary character matches up to ASCII case. -/
theorem likeMatch_char_cons (a : Char) (ps : List Char) (c : Char) (ts : List Char)
    (h1 : ¬a = '%') (h2 : ¬a = '_') :
    likeMatch (a :: ps) (c :: ts) =
      (likeFold a == likeFold c && likeMatch ps ts) := by
  rw [likeMatch]
  simp [h1, h2]

/-- A lone `%` pattern matches every text. -/
theorem likeMatch_percent (t : List Char) : likeMatch ['%'] t = true := by
  induction t with
  | nil =>
    rw [likeMatch_pct_nil, likeMatch_nil]
    rfl
  | cons c ts ih =>
    rw [likeMatch_pct_cons, ih]
    simp

/-- A leading `%` matches iff some suffix of the text matches the rest of
the pattern. -/
theorem likeMatch_percent_cons (ps : List Char) (t : List Char) :
    likeMatch ('%' :: ps) t = true ↔ ∃ n, likeMatch ps (t.drop n) = true := by
  induction t with
  | nil =>
    rw [likeMatch_pct_nil]
    simp
  | cons c ts ih =>
    rw [likeMatch_pct_cons]
    simp only [Bool.or_eq_true, ih]
    constructor
    · rintro (h | ⟨n, h⟩)
      · exact ⟨0, h⟩
      · exact ⟨n + 1, h⟩
    · rintro ⟨n, h⟩
      cases n with
      | zero => exact Or.inl h
      | succ n => exact Or.inr ⟨n, h⟩

/-- On a wildcard-free pattern followed by `%`, `LIKE` matching is exactly a
case-folded comparison of the pattern against the head of the text. -/
theorem likeMatch_append_percent (p : List Char)
    (hw : ∀ c ∈ p, ¬(c = '%') ∧ ¬(c = '_')) (t : List Char) :
    likeMatch (p ++ ['%']) t =
      listStartsWith (p.map likeFold) (t.map likeFold) := by
  induction p generalizing t with
  | nil =>
    simp [likeMatch_percent, listStartsWith]
  | cons a ps ih =>
    have ha := hw a (List.mem_cons_self a ps)
    have hw' : ∀ c ∈ ps, ¬(c = '%') ∧ ¬(c = '_') :=
      fun c hc => hw c (List.mem_cons_of_mem a hc)
    cases t with
    | nil =>
      rw [List.cons_append, likeMatch_char_nil _ _ ha.1]
      simp [listStartsWith]
    | cons c ts =>
      rw [List.cons_append, likeMatch_char_cons _ _ _ _ ha.1 ha.2, ih hw' ts]
      simp [listStartsWith]

/-- `containsList` finds the pattern iff it starts at some drop of the
text. -/
theorem containsList_iff_drop (pat : List Char) (l : List Char) :
    containsList pat l = true ↔ ∃ n, listStartsWith pat (l.drop n) = true := by
  induction l with
  | nil =>
    rw [containsList]
    simp
  | cons c cs ih =>
    rw [containsList]
    simp only [Bool.or_eq_true, ih]
    constructor
    · rintro (h | ⟨n, h⟩)
      · exact ⟨0, h⟩
      · exact ⟨n + 1, h⟩
    · rintro ⟨n, h⟩
      cases n with
      | zero => exact Or.inl h
      | succ n => exact Or.inr ⟨n, h⟩

/-- The `LIKE '%' || q || '%'` match on a wildcard-free `q` is exactly the
case-folded substring test. -/
theorem likeMatch_substring (q t : List Char)
    (hw : ∀ c ∈ q, ¬(c = '%') ∧ ¬(c = '_')) :
    likeMatch ('%' :: (q ++ ['%'])) t = true ↔
      containsList (q.map likeFold) (t.map likeFold) = true := by
  rw [likeMatch_percent_cons, containsList_iff_drop]
  constructor
  · rintro ⟨n, h⟩
    refine ⟨n, ?_⟩
    rw [likeMatch_append_percent q hw (t.drop n)] at h
    rwa [List.map_drop] at h
  · rintro ⟨n, h⟩
    refine ⟨n, ?_⟩
    rw [likeMatch_append_percent q hw (t.drop n)]
    rwa [← List.map_drop] at h

/-- C10 — corrected (amended form). An empty (falsy) query returns `[]`
without consulting the store; a non-empty query without `LIKE`
metacharacters returns exactly the products whose name contains the
whitespace-trimmed query as a substring up to ASCII case folding — the
match is case-insensitive, not the literal substring test, and `%` or `_`
in a query act as wildcards. -/
theorem searchProducts_empty_and_substring :
    (∀ s : DBState, searchProducts s "" = []) ∧
    (∀ (s : DBState) (q : String) (r : Product), q ≠ "" →
      (∀ c ∈ trimList q.data, ¬(c = '%') ∧ ¬(c = '_')) →
      (r ∈ searchProducts s q ↔
        r ∈ s.rows ∧ specSearchMatchCI q r.name = true)) := by
  constructor
  · intro s
    rfl
  · intro s q r hq hwild
    unfold searchProducts
    rw [if_neg hq]
    simp only [List.mem_mergeSort, List.mem_filter]
    rw [likeMatch_substring (trimList q.data) r.name.data hwild]
    exact Iff.rfl

/-- C10 — witness: the empty query on `sXA`, and the query `"a"` against
the product named `XA` (matched case-insensitively). -/
theorem searchProducts_empty_and_substring_witness :
    searchProducts sXA "" = [] ∧
      (rowXA ∈ searchProducts sXA "a" ↔
        rowXA ∈ sXA.rows ∧ specSearchMatchCI "a" rowXA.name = true) :=
  ⟨searchProducts_empty_and_substring.1 sXA,
    searchProducts_empty_and_substring.2 sXA "a" rowXA (by decide) (by decide)⟩

/-- C10 — counterexample to the claim as stated: the non-empty query `"a"`
returns the product named `XA` although the trimmed query is not a literal
substring of that name — the match is performed case-insensitively, not as
a plain substring test. -/
theorem searchProducts_case_counterexample :
    searchProducts sXA "a" = [rowXA] ∧ specSearchMatch "a" "XA" = false := by
  constructor
  · simp only [searchProducts]
    rw [if_neg (by decide)]
    have hm : likeMatch ('%' :: (trimList "a".data ++ ['%'])) rowXA.name.data = true :=
      (likeMatch_substring (trimList "a".data) rowXA.name.data (by decide)).mpr
        (by decide)
    have hf : sXA.rows.filter (fun r =>
        likeMatch ('%' :: (trimList "a".data ++ ['%'])) r.name.data) = [rowXA] := by
      simp [sXA, List.filter_cons, hm]
    rw [hf, List.mergeSort_singleton]
  · decide

/-! ### Decimal rendering and identifier order (towards the id-generation
claims) -/

/-- The fuel of the decimal renderer is irrelevant once it exceeds the
number being rendered. -/
theorem natToDigitsAux_fuel :
    ∀ (n f : Nat), n < f → natToDigitsAux f n = natToDigitsAux (n + 1) n := by
  intro n
  induction n using Nat.strong_induction_on with
  | _ n ih =>
    intro f hf
    obtain ⟨f', rfl⟩ : ∃ f', f = f' + 1 := ⟨f - 1, by omega⟩
    by_cases h10 : n < 10
    · simp [natToDigitsAux, h10]
    · have hdiv : n / 10 < n := Nat.div_lt_self (by omega) (by omega)
      simp only [natToDigitsAux, if_neg h10]
      rw [ih (n / 10) hdiv f' (by omega), ih (n / 10) hdiv n hdiv]

/-- Rendering a single-digit number. -/
theorem jsNatToString_lt10 (n : Nat) (h : n < 10) :
    jsNatToString n = [Nat.digitChar n] := by
  unfold jsNatToString
  simp [natToDigitsAux, h]

/-- Rendering recurrence above ten. -/
theorem jsNatToString_ge10 (n : Nat) (h : 10 ≤ n) :
    jsNatToString n = jsNatToString (n / 10) ++ [Nat.digitChar (n % 10)] := by
  unfold jsNatToString
  rw [show natToDigitsAux (n + 1) n =
      if n < 10 then [Nat.digitChar n]
      else natToDigitsAux n (n / 10) ++ [Nat.digitChar (n % 10)] from rfl]
  rw [if_neg (by omega : ¬n < 10)]
  rw [natToDigitsAux_fuel (n / 10) n (Nat.div_lt_self (by omega) (by omega))]

/-- Zero-padding the rendering of a number below 1000 yields its three
decimal digits. -/
theorem pad3_jsNat (k : Nat) (hk : k ≤ 999) :
    padStart3 (jsNatToString k) = threeDigits k := by
  by_cases h1 : k < 10
  · rw [jsNatToString_lt10 k h1]
    unfold padStart3 threeDigits
    have e1 : k / 100 = 0 := by omega
    have e2 : k / 10 % 10 = 0 := by omega
    have e3 : k % 10 = k := by omega
    rw [e1, e2, e3]
    rfl
  · by_cases h2 : k < 100
    · rw [jsNatToString_ge10 k (by omega), jsNatToString_lt10 (k / 10) (by omega)]
      unfold padStart3 threeDigits
      have e1 : k / 100 = 0 := by omega
      have e2 : k / 10 % 10 = k / 10 := by omega
      rw [e1, e2]
      rfl
    · rw [jsNatToString_ge10 k (by omega), jsNatToString_ge10 (k / 10) (by omega),
        jsNatToString_lt10 (k / 10 / 10) (by omega)]
      unfold padStart3 threeDigits
      have e1 : k / 10 / 10 = k / 100 := by
        rw [Nat.div_div_eq_div_mul]
      have e2 : k / 10 % 10 = k / 10 % 10 := rfl
      rw [e1]
      rfl

/-- Code point of a decimal digit character. -/
theorem digitChar_toNat (d : Nat) (h : d < 10) :
    (Nat.digitChar d).toNat = 48 + d := by
  interval_cases d <;> decide

/-- Parsing inverts rendering on single digits. -/
theorem digitVal_digitChar (d : Nat) (h : d < 10) :
    digitVal (Nat.digitChar d) = d := by
  interval_cases d <;> decide

/-- Digit characters satisfy the regex class `\d`. -/
theorem digitChar_isDigit (d : Nat) (h : d < 10) :
    (Nat.digitChar d).isDigit = true := by
  interval_cases d <;> decide

/-- `parseInt` recovers the value from the three rendered digits. -/
theorem digitsToNat_threeDigits (k : Nat) (hk : k ≤ 999) :
    digitsToNat (threeDigits k) = k := by
  unfold digitsToNat threeDigits
  simp only [List.foldl_cons, List.foldl_nil]
  rw [digitVal_digitChar (k / 100) (by omega), digitVal_digitChar (k / 10 % 10) (by omega),
    digitVal_digitChar (k % 10) (by omega)]
  omega

/-- Byte-wise comparison is irreflexive. -/
theorem strLtList_irrefl (l : List Char) : strLtList l l = false := by
  induction l with
  | nil => rfl
  | cons c cs ih =>
    rw [strLtList]
    simp [ih]

/-- Byte-wise comparison is asymmetric. -/
theorem strLtList_asymm :
    ∀ (a b : List Char), strLtList a b = true → strLtList b a = false := by
  intro a
  induction a with
  | nil =>
    intro b h
    cases b with
    | nil => exact absurd h (by simp [strLtList])
    | cons y ys => rfl
  | cons x xs ih =>
    intro b h
    cases b with
    | nil => exact absurd h (by simp [strLtList])
    | cons y ys =>
      rw [strLtList] at h ⊢
      by_cases h1 : x.toNat < y.toNat
      · have h2 : ¬y.toNat < x.toNat := by omega
        simp [h1, h2]
      · by_cases h2 : y.toNat < x.toNat
        · rw [if_neg h1, if_pos h2] at h
          exact absurd h (by simp)
        · rw [if_neg h1, if_neg h2] at h
          simp [h1, h2, ih ys h]

/-- Byte-wise comparison ignores a shared head. -/
theorem strLtList_append_same (p a b : List Char) :
    strLtList (p ++ a) (p ++ b) = strLtList a b := by
  induction p with
  | nil => rfl
  | cons c cs ih =>
    rw [List.cons_append, List.cons_append, strLtList]
    simp [ih]

/-- On equal-width digit renderings, byte order is numeric order. -/
theorem threeDigits_lt (j k : Nat) (hj : j < k) (hk : k ≤ 999) :
    strLtList (threeDigits j) (threeDigits k) = true := by
  unfold threeDigits
  rw [strLtList]
  by_cases h1 : j / 100 < k / 100
  · rw [if_pos]
    rw [digitChar_toNat (j / 100) (by omega), digitChar_toNat (k / 100) (by omega)]
    omega
  · have e1 : j / 100 = k / 100 := by omega
    rw [e1]
    rw [if_neg (by omega), if_neg (by omega)]
    rw [strLtList]
    by_cases h2 : j / 10 % 10 < k / 10 % 10
    · rw [if_pos]
      rw [digitChar_toNat (j / 10 % 10) (by omega), digitChar_toNat (k / 10 % 10) (by omega)]
      omega
    · have e2 : j / 10 % 10 = k / 10 % 10 := by omega
      rw [e2]
      rw [if_neg (by omega), if_neg (by omega)]
      rw [strLtList]
      have h3 : j % 10 < k % 10 := by omega
      rw [if_pos]
      rw [digitChar_toNat (j % 10) (by omega), digitChar_toNat (k % 10) (by omega)]
      omega

/-- The characters of a generated identifier. -/
theorem pad3Id_data (k : Nat) (hk : k ≤ 999) :
    (pad3Id k).data = "prod_".data ++ threeDigits k := by
  show "prod_".data ++ padStart3 (jsNatToString k) = "prod_".data ++ threeDigits k
  rw [pad3_jsNat k hk]

/-- Byte order of generated identifiers below 1000 is numeric order. -/
theorem strLt_pad3_iff (j k : Nat) (hj : j ≤ 999) (hk : k ≤ 999) :
    (strLt (pad3Id j) (pad3Id k) = true ↔ j < k) := by
  unfold strLt
  rw [pad3Id_data j hj, pad3Id_data k hk, strLtList_append_same]
  constructor
  · intro h
    by_contra hnot
    rcases Nat.lt_or_ge k j with hkj | hjk
    · have := strLtList_asymm _ _ (threeDigits_lt k j hkj (by omega))
      rw [h] at this
      exact absurd this (by simp)
    · have hkj : k = j := by omega
      rw [hkj] at h
      rw [strLtList_irrefl] at h
      exact absurd h (by simp)
  · intro h
    exact threeDigits_lt j k h hk

/-- Generated identifiers below 1000 are pairwise distinct. -/
theorem pad3Id_inj (j k : Nat) (hj : j ≤ 999) (hk : k ≤ 999)
    (h : pad3Id j = pad3Id k) : j = k := by
  by_contra hne
  rcases Nat.lt_or_ge j k with hlt | hge
  · have h1 := (strLt_pad3_iff j k hj hk).mpr hlt
    rw [h] at h1
    unfold strLt at h1
    rw [strLtList_irrefl] at h1
    exact absurd h1 (by simp)
  · have hlt : k < j := by omega
    have h1 := (strLt_pad3_iff k j hk hj).mpr hlt
    rw [h] at h1
    unfold strLt at h1
    rw [strLtList_irrefl] at h1
    exact absurd h1 (by simp)

/-- The numeric suffix of a generated identifier is its counter value. -/
theorem suffixNum_pad3 (k : Nat) (hk : k ≤ 999) : suffixNum (pad3Id k) = k := by
  unfold suffixNum
  rw [pad3Id_data k hk]
  rw [show "prod_".data = ['p', 'r', 'o', 'd', '_'] from rfl]
  simp only [List.cons_append, List.drop_succ_cons, List.drop_zero]
  exact digitsToNat_threeDigits k hk

/-- Every list starts with itself followed by anything. -/
theorem listStartsWith_append_self [BEq α] [LawfulBEq α] (l t : List α) :
    listStartsWith l (l ++ t) = true := by
  induction l with
  | nil => rfl
  | cons c cs ih =>
    rw [List.cons_append, listStartsWith]
    simp [ih]

/-- Generated identifiers parse as `prod_<digits>`. -/
theorem parses_pad3 (k : Nat) (hk : k ≤ 999) :
    parsesAsProdDigits (pad3Id k) = true := by
  unfold parsesAsProdDigits
  rw [pad3Id_data k hk]
  rw [listStartsWith_append_self]
  rw [show "prod_".data = ['p', 'r', 'o', 'd', '_'] from rfl]
  simp only [List.cons_append, List.drop_succ_cons, List.drop_zero]
  unfold threeDigits
  simp [digitChar_isDigit (k / 100) (by omega), digitChar_isDigit (k / 10 % 10) (by omega),
    digitChar_isDigit (k % 10) (by omega)]

/-- Folding the `ORDER BY id DESC LIMIT 1` maximum over rows whose ids are
all generated identifiers below 1000 yields the numerically largest one. -/
theorem foldMax_pad3 :
    ∀ (rows : List Product) (a : Nat), a ≤ 999 →
      (∀ r ∈ rows, ∃ k, k ≤ 999 ∧ r.id = pad3Id k) →
      ∃ b, b ≤ 999 ∧ a ≤ b ∧
        rows.foldl (fun acc r =>
          match acc with
          | none => some r.id
          | some m => some (if strLt m r.id then r.id else m)) (some (pad3Id a)) =
          some (pad3Id b) ∧
        (∀ r ∈ rows, ∀ k, k ≤ 999 → r.id = pad3Id k → k ≤ b) ∧
        (b = a ∨ ∃ r ∈ rows, r.id = pad3Id b) := by
  intro rows
  induction rows with
  | nil =>
    intro a ha _
    exact ⟨a, ha, Nat.le_refl a, rfl, by simp, Or.inl rfl⟩
  | cons r rest ih =>
    intro a ha hall
    obtain ⟨k, hk9, hid⟩ := hall r (List.mem_cons_self r rest)
    rw [List.foldl_cons]
    by_cases hlt : strLt (pad3Id a) r.id = true
    · have hak : a < k := by
        rw [hid] at hlt
        exact (strLt_pad3_iff a k ha hk9).mp hlt
      obtain ⟨b, hb9, hkb, hfold, hbound, horig⟩ :=
        ih k hk9 (fun r' hr' => hall r' (List.mem_cons_of_mem r hr'))
      refine ⟨b, hb9, by omega, ?_, ?_, ?_⟩
      · rw [show (match some (pad3Id a) with
            | none => some r.id
            | some m => some (if strLt m r.id then r.id else m)) = some r.id from by
          simp [hlt]]
        rw [hid]
        exact hfold
      · intro r' hr' k' hk9' hid'
        rcases List.mem_cons.mp hr' with rfl | hr'
        · have : k' = k := pad3Id_inj k' k hk9' hk9 (hid'.symm.trans hid)
          omega
        · exact hbound r' hr' k' hk9' hid'
      · rcases horig with rfl | ⟨r', hr', hid'⟩
        · exact Or.inr ⟨r, List.mem_cons_self r rest, hid⟩
        · exact Or.inr ⟨r', List.mem_cons_of_mem r hr', hid'⟩
    · have hka : k ≤ a := by
        by_contra hc
        rw [hid] at hlt
        exact hlt ((strLt_pad3_iff a k ha hk9).mpr (by omega))
      obtain ⟨b, hb9, hab, hfold, hbound, horig⟩ :=
        ih a ha (fun r' hr' => hall r' (List.mem_cons_of_mem r hr'))
      refine ⟨b, hb9, hab, ?_, ?_, ?_⟩
      · rw [show (match some (pad3Id a) with
            | none => some r.id
            | some m => some (if strLt m r.id then r.id else m)) = some (pad3Id a) from by
          simp [hlt]]
        exact hfold
      · intro r' hr' k' hk9' hid'
        rcases List.mem_cons.mp hr' with rfl | hr'
        · have : k' = k := pad3Id_inj k' k hk9' hk9 (hid'.symm.trans hid)
          omega
        · exact hbound r' hr' k' hk9' hid'
      · rcases horig with rfl | ⟨r', hr', hid'⟩
        · exact Or.inl rfl
        · exact Or.inr ⟨r', List.mem_cons_of_mem r hr', hid'⟩

/-- Over a table whose ids are all generated and whose maximum counter is
`m`, the `ORDER BY id DESC LIMIT 1` query returns the id with counter `m`. -/
theorem maxId_eq (m : Nat) (s : DBState) (h : stateAllPad3 m s) :
    maxId s.rows = some (pad3Id m) := by
  obtain ⟨hm1, hm9, hall, r0, hr0mem, hr0id⟩ := h
  cases hrows : s.rows with
  | nil =>
    rw [hrows] at hr0mem
    exact absurd hr0mem (List.not_mem_nil r0)
  | cons rh rt =>
    rw [hrows] at hall hr0mem
    unfold maxId
    rw [List.foldl_cons]
    obtain ⟨k0, hk01, hk0m, hidh⟩ := hall rh (List.mem_cons_self rh rt)
    have hall' : ∀ r ∈ rt, ∃ k, k ≤ 999 ∧ r.id = pad3Id k := by
      intro r hr
      obtain ⟨k, _, hkm, hid⟩ := hall r (List.mem_cons_of_mem rh hr)
      exact ⟨k, by omega, hid⟩
    obtain ⟨b, hb9, hk0b, hfold, hbound, horig⟩ := foldMax_pad3 rt k0 (by omega) hall'
    rw [show (match (none : Option String) with
        | none => some rh.id
        | some m => some (if strLt m rh.id then rh.id else m)) = some rh.id from rfl]
    rw [hidh, hfold]
    have hbm : b ≤ m := by
      rcases horig with rfl | ⟨r', hr', hid'⟩
      · omega
      · obtain ⟨k', _, hk'm, hid''⟩ := hall r' (List.mem_cons_of_mem rh hr')
        have : b = k' := pad3Id_inj b k' hb9 (by omega) (hid'.symm.trans hid'')
        omega
    have hmb : m ≤ b := by
      rcases List.mem_cons.mp hr0mem with rfl | hr0
      · have : m = k0 := pad3Id_inj m k0 hm9 (by omega) (hr0id.symm.trans hidh)
        omega
      · exact hbound r0 hr0 m hm9 hr0id
    have : b = m := by omega
    rw [this]

/-- Skipping a non-digit head in the regex scan. -/
theorem firstDigitRun_skip (c : Char) (l : List Char) (hc : c.isDigit = false) :
    firstDigitRun (c :: l) = firstDigitRun l := by
  rw [firstDigitRun]
  simp [hc]

/-- The digit-run scan over a generated identifier's characters returns its
three digits. -/
theorem firstDigitRun_pad3 (m : Nat) (hm : m ≤ 999) :
    firstDigitRun (pad3Id m).data = some (threeDigits m) := by
  rw [pad3Id_data m hm]
  rw [show "prod_".data = ['p', 'r', 'o', 'd', '_'] from rfl]
  simp only [List.cons_append, List.nil_append]
  rw [firstDigitRun_skip _ _ (by decide), firstDigitRun_skip _ _ (by decide),
    firstDigitRun_skip _ _ (by decide), firstDigitRun_skip _ _ (by decide),
    firstDigitRun_skip _ _ (by decide)]
  unfold threeDigits
  rw [firstDigitRun]
  rw [if_pos (digitChar_isDigit (m / 100) (by omega))]
  simp [List.takeWhile_cons, digitChar_isDigit (m / 10 % 10) (by omega),
    digitChar_isDigit (m % 10) (by omega)]

/-- Over a well-formed table with maximum counter `m`, the generator
produces the identifier with counter `m + 1`. -/
theorem generateProductId_eq (m : Nat) (s : DBState) (h : stateAllPad3 m s) :
    generateProductId s = pad3Id (m + 1) := by
  have hm9 : m ≤ 999 := h.2.1
  unfold generateProductId
  rw [maxId_eq m s h]
  show (match firstDigitRun (pad3Id m).data with
    | none => "prod_001"
    | some run =>
      ({ data := "prod_".data ++ padStart3 (jsNatToString (digitsToNat run + 1)) } : String)) =
    pad3Id (m + 1)
  rw [firstDigitRun_pad3 m hm9]
  show ({ data := "prod_".data ++
      padStart3 (jsNatToString (digitsToNat (threeDigits m) + 1)) } : String) =
    pad3Id (m + 1)
  rw [digitsToNat_threeDigits m hm9]
  rfl

/-- One successful create on a well-formed table: the generated id is
`pad3Id (m + 1)` and well-formedness is preserved with maximum `m + 1`. -/
theorem createProduct_step (m : Nat) (s : DBState) (input : ProductInput) (now : Nat)
    (h : stateAllPad3 m s) (hm : m + 1 ≤ 999)
    (hname : input.name ≠ "") (hprice : 0 ≤ input.price) :
    createProduct now s input =
      .ok (⟨s.rows ++ [insertedRow now s input]⟩, insertedRow now s input) ∧
    (insertedRow now s input).id = pad3Id (m + 1) ∧
    stateAllPad3 (m + 1) ⟨s.rows ++ [insertedRow now s input]⟩ := by
  have hm9 : m ≤ 999 := h.2.1
  have hgen : generateProductId s = pad3Id (m + 1) := generateProductId_eq m s h
  have hany : (s.rows.any fun r => r.id == generateProductId s) = false := by
    simp only [List.any_eq_false]
    intro r hr
    obtain ⟨k, hk1, hkm, hid⟩ := h.2.2.1 r hr
    rw [hid, hgen]
    intro hc
    have := pad3Id_inj k (m + 1) (by omega) (by omega) (by simpa using hc)
    omega
  have hpc : priceCheck input.price = true := by
    simp [priceCheck, hprice]
  have hne : generateProductId s ≠ "" := by
    intro hc
    have hd : (generateProductId s).data = [] := by rw [hc]
    rw [hgen] at hd
    rw [pad3Id_data (m + 1) (by omega)] at hd
    simp at hd
  have hbeq : ((insertedRow now s input).id == generateProductId s) = true := by
    simp [insertedRow]
  have hfind : getProductById ⟨s.rows ++ [insertedRow now s input]⟩
      (generateProductId s) = some (insertedRow now s input) := by
    unfold getProductById
    rw [if_neg hne]
    rw [List.find?_append]
    rw [List.find?_eq_none.mpr (fun r hr => List.any_eq_false.mp hany r hr)]
    simp only [Option.none_or, List.find?_cons, List.find?_nil, hbeq]
  refine ⟨?_, ?_, ?_⟩
  · simp only [createProduct]
    rw [if_neg hname]
    simp only [hany, Bool.false_eq_true, if_false, hpc, if_true, hfind]
  · show generateProductId s = pad3Id (m + 1)
    exact hgen
  · refine ⟨by omega, hm, ?_, ?_⟩
    · intro r hr
      rcases List.mem_append.mp hr with hr | hr
      · obtain ⟨k, hk1, hkm, hid⟩ := h.2.2.1 r hr
        exact ⟨k, hk1, by omega, hid⟩
      · rcases List.mem_singleton.mp hr with rfl
        exact ⟨m + 1, by omega, Nat.le_refl _, hgen⟩
    · exact ⟨insertedRow now s input, List.mem_append_right _ (List.mem_singleton.mpr rfl), hgen⟩

/-- The ids generated by `N` successive creates from a well-formed table
with maximum counter `m` are `pad3Id (m+1), …, pad3Id (m+N)` in order. -/
theorem createSeq_ids (input : ProductInput) (now : Nat)
    (hname : input.name ≠ "") (hprice : 0 ≤ input.price) :
    ∀ (N m : Nat) (s : DBState), stateAllPad3 m s → m + N ≤ 999 →
      (createSeq input now N s).2 =
        (List.range N).map (fun i => pad3Id (m + 1 + i)) := by
  intro N
  induction N with
  | zero => intro m s _ _; rfl
  | succ n ih =>
    intro m s h hmn
    obtain ⟨hok, hid, hinv⟩ := createProduct_step m s input now h (by omega) hname hprice
    rw [createSeq]
    rw [hok]
    simp only
    rw [ih (m + 1) _ hinv (by omega), hid]
    rw [List.range_succ_eq_map]
    simp only [List.map_cons, List.map_map]
    congr 1
    apply List.map_congr_left
    intro i _
    simp only [Function.comp_apply]
    congr 1
    omega

/-- C1 — corrected (amended form). From any table state whose ids are all
of the canonical zero-padded three-digit form `prod_NNN` with maximum
counter `m`, and as long as the counters stay within the three-digit range
(`m + N ≤ 999`), `N` successive creates generate exactly the ids
`prod_(m+1) … prod_(m+N)`: strictly increasing in numeric suffix, all of
the form `prod_` followed by digits, and pairwise distinct. Beyond that
range the lexicographic `ORDER BY id DESC` diverges from numeric order and
the property fails (see the counterexample). -/
theorem createSeq_ids_strictly_increasing :
    ∀ (N m : Nat) (s : DBState) (input : ProductInput) (now : Nat),
      stateAllPad3 m s → m + N ≤ 999 → input.name ≠ "" → 0 ≤ input.price →
      (createSeq input now N s).2 =
        (List.range N).map (fun i => pad3Id (m + 1 + i)) ∧
      (createSeq input now N s).2.Pairwise (fun a b => suffixNum a < suffixNum b) ∧
      (∀ id ∈ (createSeq input now N s).2, parsesAsProdDigits id = true) ∧
      (createSeq input now N s).2.Nodup := by
  intro N m s input now h hmn hname hprice
  have heq := createSeq_ids input now hname hprice N m s h hmn
  have hb : ∀ i ∈ List.range N, m + 1 + i ≤ 999 := by
    intro i hi
    have := List.mem_range.mp hi
    omega
  refine ⟨heq, ?_, ?_, ?_⟩
  · rw [heq]
    rw [List.pairwise_map]
    refine List.Pairwise.imp_of_mem ?_ (List.pairwise_lt_range N)
    intro a b ha hb' hab
    rw [suffixNum_pad3 _ (hb a ha), suffixNum_pad3 _ (hb b hb')]
    omega
  · intro id hid
    rw [heq] at hid
    obtain ⟨i, hi, rfl⟩ := List.mem_map.mp hid
    exact parses_pad3 _ (hb i hi)
  · rw [heq]
    refine List.Nodup.map_on ?_ (List.nodup_range N)
    intro x hx y hy hxy
    have := pad3Id_inj (m + 1 + x) (m + 1 + y) (hb x hx) (hb y hy) hxy
    omega

/-- C1 — witness: two creates from the one-row table `prod_001` generate
`prod_002` then `prod_003`. -/
theorem createSeq_ids_strictly_increasing_witness :
    (createSeq demoInput 5 2 s001).2 = ["prod_002", "prod_003"] := by
  have hstate : stateAllPad3 1 s001 := by
    refine ⟨Nat.le_refl 1, by omega, ?_, ?_⟩
    · intro r hr
      refine ⟨1, Nat.le_refl 1, Nat.le_refl 1, ?_⟩
      have hr' : r = row001 := by simpa [s001] using hr
      rw [hr']
      rfl
    · exact ⟨row001, by simp [s001], rfl⟩
  exact ((createSeq_ids_strictly_increasing 2 1 s001 demoInput 5 hstate (by omega)
    (by decide) (by decide)).1).trans (by rfl)

/-- C1 — counterexample to the claim as stated: from the table holding
`prod_999`, the first create generates `prod_1000`, but lexicographic
`ORDER BY id DESC` still ranks `prod_999` above `prod_1000`, so the next
generated id is `prod_1000` again — not strictly increasing, not distinct —
and the second create is rejected by the primary-key constraint. -/
theorem createSeq_duplicate_counterexample :
    ((createProduct 5 s999 demoInput).toOption.map fun r => r.2.id) =
      some "prod_1000" ∧
    ((createProduct 5 s999 demoInput).toOption.map fun r => generateProductId r.1) =
      some "prod_1000" ∧
    ((createProduct 5 s999 demoInput).toOption.map
        fun r => createProduct 6 r.1 demoInput) =
      some (.error .constraintViolation) :=
  ⟨rfl, rfl, rfl⟩

end SSRS
